import Mathlib

/-!
Verification development for the harpou-ai-gateway repository.

Python strings are embedded as lists of characters (`Str`), Python values
appearing in JSON payloads as the inductive `PyVal`, and the side-effecting
boundaries of the code (upstream LLM calls, web fetches, the tool runners,
prompt files, clocks and id generators) as explicit oracle functions carried
in environment structures.  Each definition is translated from the named
function of the source; fallible Python code is modelled with `Except PyErr`.
-/

/-- Python strings, embedded as character lists. -/
abbrev Str := List Char

/-- Python whitespace for `str.strip()` (the ASCII whitespace characters). -/
def pyIsSpace (c : Char) : Bool :=
  c == ' ' || c == '\t' || c == '\n' || c == '\r' || c == '\x0b' || c == '\x0c'

/-- Python `s.strip()`: drop whitespace from both ends. -/
def pyStrip (s : Str) : Str :=
  ((s.dropWhile pyIsSpace).reverse.dropWhile pyIsSpace).reverse

/-- Python `s.startswith(p)`. -/
def pyStartsWith (s p : Str) : Bool :=
  p.isPrefixOf s

/-- Python `'/' in s`. -/
def hasSlash (s : Str) : Bool :=
  s.any (fun c => c == '/')

/-- Python `s.split('/', 1)`: the parts before and after the first slash
(meaningful when the string contains a slash). -/
def splitOnFirstSlash (s : Str) : Str × Str :=
  match s with
  | [] => ([], [])
  | c :: rest =>
    if c = '/' then ([], rest)
    else
      let p := splitOnFirstSlash rest
      (c :: p.1, p.2)

/-- Python `set.add`: membership-based insertion (order is irrelevant). -/
def insertSet (x : Str) (s : List Str) : List Str :=
  if x ∈ s then s else x :: s

/-- Concatenation of the images of a list, in order. -/
def flatMapL (f : α → List β) : List α → List β
  | [] => []
  | a :: as => f a ++ flatMapL f as

/-- Python `d[k] = v` on an insertion-ordered dictionary represented as an
association list: replace the value of an existing key in place, else append. -/
def dictSet (d : List (Str × α)) (k : Str) (v : α) : List (Str × α) :=
  match d with
  | [] => [(k, v)]
  | (k0, v0) :: rest =>
    if k0 = k then (k0, v) :: rest else (k0, v0) :: dictSet rest k v

/-- The keys of an association-list dictionary. -/
def dictKeys (d : List (Str × α)) : List Str :=
  d.map Prod.fst

/-- Python values as they occur in the JSON payloads the gateway handles. -/
inductive PyVal where
  | none
  | bool (b : Bool)
  | int (n : Int)
  | str (s : Str)
  | list (xs : List PyVal)
  | dict (kvs : List (Str × PyVal))

/-- Python truthiness of a `PyVal`. -/
def pyTruthy : PyVal → Bool
  | .none => false
  | .bool b => b
  | .int n => decide (n ≠ 0)
  | .str s => decide (s ≠ [])
  | .list xs => !xs.isEmpty
  | .dict kvs => !kvs.isEmpty

/-- Python `d.get(k)`: the value of the first matching key, `None` if absent. -/
def dictGet (kvs : List (Str × PyVal)) (k : Str) : PyVal :=
  match kvs.find? (fun kv => decide (kv.1 = k)) with
  | some kv => kv.2
  | Option.none => .none

/-- Python `d.get(k, default)`. -/
def dictGetD (kvs : List (Str × PyVal)) (k : Str) (dflt : PyVal) : PyVal :=
  match kvs.find? (fun kv => decide (kv.1 = k)) with
  | some kv => kv.2
  | Option.none => dflt

/-- Python `k in d` for a dictionary. -/
def dictHasKey (kvs : List (Str × PyVal)) (k : Str) : Bool :=
  (kvs.find? (fun kv => decide (kv.1 = k))).isSome

/-- Python `v == "lit"` where the right side is a string literal. -/
def pyEqStr (v : PyVal) (s : Str) : Bool :=
  match v with
  | .str t => decide (t = s)
  | _ => false

/-- Whether a `PyVal` is Python `None`. -/
def pyIsNone : PyVal → Bool
  | .none => true
  | _ => false

/-- Python `a or b`: the first operand when truthy, else the second. -/
def pyOrV (a b : PyVal) : PyVal :=
  if pyTruthy a then a else b

/-- A raised Python exception, carrying its message. -/
structure PyErr where
  msg : Str

/-- Python `v in names` for a set of strings: hashable values answer the
membership test, unhashable ones (dict, list) raise `TypeError`. -/
def pyMemStrSet (v : PyVal) (names : List Str) : Except PyErr Bool :=
  match v with
  | .str s => .ok (decide (s ∈ names))
  | .none => .ok false
  | .bool _ => .ok false
  | .int _ => .ok false
  | .list _ => .error ⟨"TypeError: unhashable type".data⟩
  | .dict _ => .error ⟨"TypeError: unhashable type".data⟩

/-- Python `v.startswith(p)` on a dynamically typed value: strings answer,
every other type raises `AttributeError`. -/
def pyAttrStartsWith (v : PyVal) (p : Str) : Except PyErr Bool :=
  match v with
  | .str s => .ok (pyStartsWith s p)
  | _ => .error ⟨"AttributeError".data⟩

/-! ## Conversation messages and the multimodal pre-processor
(app/llm_connector.py, lines 252-271 and `_encode_image_url`, lines 61-85).

A message is a dictionary with a `role` key and a `content` key; content is a
string, a list of parts, or Python `None`.  A part carries a `type` key and,
for image parts, an `image_url` object holding a `url` string.  Well-typed
message shapes (the ones the OpenAI wire contract allows) are embedded
structurally. -/

/-- The `image_url` object of an image part (`part.get('image_url', {})`;
a missing `url` key reads as `None`). -/
structure ImgObj where
  url : Option Str
deriving DecidableEq

/-- One part of a list-valued message content. -/
structure MsgPart where
  ptype : Option Str
  imageUrl : Option ImgObj
deriving DecidableEq

/-- The `content` value of a message: a string, a list of parts, or `None`. -/
inductive Content where
  | str (s : Str)
  | parts (ps : List MsgPart)
  | pynone
deriving DecidableEq

/-- A conversation message: a missing key reads as `Option.none`. -/
structure Message where
  role : Option Str
  content : Option Content
deriving DecidableEq

/-- `url.startswith(('http://', 'https://'))` from llm_connector line 264. -/
def isWebUrl (u : Str) : Bool :=
  pyStartsWith u "http://".data || pyStartsWith u "https://".data

/-- `_encode_image_url` (llm_connector lines 61-85): the download and MIME
detection are an oracle returning the MIME type and the base64 payload, or
nothing when the request fails; a success is packaged as a data URI. -/
def encodeImageUrl (fetch : Str → Option (Str × Str)) (u : Str) : Option Str :=
  match fetch u with
  | some p => some ("data:".data ++ (p.1 ++ (";base64,".data ++ p.2)))
  | Option.none => Option.none

/-- The per-part body of the loop at llm_connector lines 257-271: an
`image_url` part whose url is a web url is replaced by its data URI when the
download succeeds; every other part is left as it is. -/
def processPart (fetch : Str → Option (Str × Str)) (p : MsgPart) : MsgPart :=
  if p.ptype = some "image_url".data then
    match p.imageUrl with
    | some obj =>
      match obj.url with
      | some u =>
        if isWebUrl u then
          match encodeImageUrl fetch u with
          | some d => { p with imageUrl := some { url := some d } }
          | Option.none => p
        else p
      | Option.none => p
    | Option.none => p
  else p

/-- The per-message body of the loop at llm_connector lines 257-271: only
list-valued contents are walked. -/
def processMessage (fetch : Str → Option (Str × Str)) (m : Message) : Message :=
  match m.content with
  | some (.parts ps) => { m with content := some (.parts (ps.map (processPart fetch))) }
  | _ => m

/-- The whole multimodal pre-processing pass over `processed_messages`
(llm_connector lines 254-271); the deep copy gives value semantics. -/
def preprocessMessages (fetch : Str → Option (Str × Str)) (ms : List Message) : List Message :=
  ms.map (processMessage fetch)

/-- A part whose url is not a web url (in particular an already inlined
`data:` URI): the pre-processor has nothing to rewrite in it. -/
def partNonWeb (p : MsgPart) : Bool :=
  match p.imageUrl with
  | some obj =>
    match obj.url with
    | some u => !(isWebUrl u)
    | Option.none => true
  | Option.none => true

/-- A message all of whose image parts are already inlined. -/
def msgNonWeb (m : Message) : Bool :=
  match m.content with
  | some (.parts ps) => ps.all partNonWeb
  | _ => true

/-! ## The LLM connector and failover
(`_execute_llm_request`, app/llm_connector.py lines 185-346).

The upstream client call is the oracle `call`, mapping a backend name and the
raw model name sent to it to one of three outcomes: success, a connection or
timeout error (`openai.APIConnectionError` / `openai.APITimeoutError`), or a
protocol error (any other `openai.APIError`, e.g. an HTTP 4xx/5xx status).
The multimodal pre-processing of the messages (embedded above) and the JSON
normalisation of a successful response cannot change the routing control
flow, so the routing embedding carries no message payload.  The unbounded
recursion of the source is given a fuel parameter; exhausting the fuel yields
the distinguished result `diverged`, which models non-termination. -/

/-- One configured backend (config key `llm_backends`); the network fields
(base url, api key, timeout) live behind the call oracle. -/
structure Backend where
  name : Option Str
  llmAutoLoad : Bool
  defaultModel : Option Str

/-- `_get_backend_config` (llm_connector lines 17-25). -/
def getBackendConfig (backends : List Backend) (nm : Str) : Option Backend :=
  backends.find? (fun b => decide (b.name = some nm))

/-- The observable outcome of one upstream chat-completions call. -/
inductive CallOutcome where
  | success
  | connErr
  | protoErr

/-- The connector configuration and its call oracle. -/
structure ConnEnv where
  backends : List Backend
  primaryBackendName : Option Str
  haStrategy : Option Str
  call : Str → Str → CallOutcome

/-- The result of `_execute_llm_request` as seen by its caller. -/
inductive ExecResult where
  | ok (backend : Str) (model : Str)
  | connFail
  | protoFail
  | cfgError
  | diverged
deriving DecidableEq

/-- Truthiness of an optional string (Python `if not x` on `None` or `""`). -/
def strOptTruthy : Option Str → Bool
  | some s => decide (s ≠ [])
  | Option.none => false

/-- Lines 224-240 of `_execute_llm_request`: the explicit `backend/model`
routing in the model name takes priority over the `backend_name` parameter;
a missing backend falls back to the primary; none at all raises ValueError
(`Option.none` here). -/
def resolveRouting (env : ConnEnv) (modelName : Str) (backendName : Option Str) :
    Option (Str × Str) :=
  let pr :=
    if hasSlash modelName then
      let p := splitOnFirstSlash modelName
      (some p.1, p.2)
    else (backendName, modelName)
  let fbn := if strOptTruthy pr.1 then pr.1 else env.primaryBackendName
  if strOptTruthy fbn then some (fbn.getD [], pr.2) else Option.none

/-- `_execute_llm_request` (llm_connector lines 185-346), routing and failover
control flow: resolve the backend, record it as tried, call upstream; on a
connection or timeout error and strategy `failover`, retry the next backend in
registry order not yet tried, passing the UNCHANGED `model_name`; on a
protocol error re-raise at once. -/
def execLlmRequest (env : ConnEnv) :
    Nat → Str → Option Str → List Str → ExecResult
  | 0, _, _, _ => .diverged
  | fuel + 1, modelName, backendName, tried =>
    match resolveRouting env modelName backendName with
    | Option.none => .cfgError
    | some (fb, fm) =>
      let tried1 := insertSet fb tried
      match getBackendConfig env.backends fb with
      | Option.none => .cfgError
      | some _ =>
        match env.call fb fm with
        | .success => .ok fb fm
        | .protoErr => .protoFail
        | .connErr =>
          if env.haStrategy = some "failover".data then
            match env.backends.find?
                (fun b => !(match b.name with
                            | some n => decide (n ∈ tried1)
                            | Option.none => false)) with
            | some nb => execLlmRequest env fuel modelName nb.name tried1
            | Option.none => .connFail
          else .connFail

/-- The concrete two-backend configuration of spec scenario S3: backends `a`
then `b` in registry order, strategy `failover`, backend `a` unreachable
(every call to it raises a connection error), backend `b` healthy. -/
def cfgAB : ConnEnv where
  backends := [⟨some "a".data, true, Option.none⟩, ⟨some "b".data, true, Option.none⟩]
  primaryBackendName := some "a".data
  haStrategy := some "failover".data
  call := fun bn _ => if bn = "a".data then .connErr else .success

/-! ## Heap model of the deep-copy discipline
(app/tasks.py line 385 with lines 436-439, and app/llm_connector.py lines
252-271).

Python mutates message objects in place; both functions first take
`copy.deepcopy` of the conversation.  The heap maps addresses to message
values, `nxt` is the allocation pointer, and a deep copy allocates fresh
addresses for the copied messages; the later in-place updates are heap
writes at the copied addresses. -/

/-- Pointwise function update. -/
def updFn (f : Nat → Message) (a : Nat) (v : Message) : Nat → Message :=
  fun x => if x = a then v else f x

/-- A heap of message objects with its allocation pointer. -/
structure Heap where
  mem : Nat → Message
  nxt : Nat

/-- `copy.deepcopy` on a list of message references: fresh addresses holding
the same values. -/
def deepcopyList (h : Heap) : List Nat → List Nat × Heap
  | [] => ([], h)
  | a :: rest =>
    let na := h.nxt
    let h1 : Heap := ⟨updFn h.mem na (h.mem a), h.nxt + 1⟩
    let p := deepcopyList h1 rest
    (na :: p.1, p.2)

/-- Lines 385 and 436-439 of `orchestrator_task`: deep-copy the conversation,
then either overwrite the content of a leading system message or prepend a
fresh system message carrying the final system prompt. -/
def synthPrepHeap (h : Heap) (conv : List Nat) (prompt : Str) : List Nat × Heap :=
  let p := deepcopyList h conv
  let h1 := p.2
  match p.1 with
  | a :: _ =>
    if (h1.mem a).role = some "system".data then
      (p.1, ⟨updFn h1.mem a { h1.mem a with content := some (.str prompt) }, h1.nxt⟩)
    else
      (h1.nxt :: p.1,
       ⟨updFn h1.mem h1.nxt ⟨some "system".data, some (.str prompt)⟩, h1.nxt + 1⟩)
  | [] =>
    ([h1.nxt],
     ⟨updFn h1.mem h1.nxt ⟨some "system".data, some (.str prompt)⟩, h1.nxt + 1⟩)

/-- Lines 252-271 of `_execute_llm_request`: deep-copy the messages, then
rewrite each copied message in place by the multimodal pre-processor. -/
def preprocessHeap (fetch : Str → Option (Str × Str)) (h : Heap) (msgs : List Nat) :
    List Nat × Heap :=
  let p := deepcopyList h msgs
  (p.1, p.1.foldl (fun hh a => ⟨updFn hh.mem a (processMessage fetch (hh.mem a)), hh.nxt⟩) p.2)

/-! ## The model-catalog refresh
(`refresh_and_cache_models`, app/services.py lines 23-70).

The list-models endpoint of each backend is the oracle `listModels`, keyed by
backend name: `some ids` when the listing succeeds, `Option.none` when it
fails (in the source, `list_models_from_backend` then returns `[]` and the
surrounding try block isolates any other error, so the backend contributes
nothing).  Entries record the composite model id; the remaining descriptor
fields do not affect the claims about the map keys. -/

/-- The entries one backend adds to `exposed_models`, in loop order. -/
def backendContribution (listModels : Str → Option (List Str)) (b : Backend) :
    List (Str × Str) :=
  match b.name with
  | Option.none => []
  | some nm =>
    if nm = [] then []
    else if b.llmAutoLoad then
      match listModels nm with
      | some mlist => mlist.map (fun mid => (nm ++ ('/' :: mid), nm ++ ('/' :: mid)))
      | Option.none => []
    else
      match b.defaultModel with
      | some dm => if dm = [] then [] else [(nm ++ ('/' :: dm), nm ++ ('/' :: dm))]
      | Option.none => []

/-- `refresh_and_cache_models`: fill the dictionary backend by backend. -/
def refreshAndCacheModels (backends : List Backend)
    (listModels : Str → Option (List Str)) : List (Str × Str) :=
  (flatMapL (backendContribution listModels) backends).foldl
    (fun acc kv => dictSet acc kv.1 kv.2) []

/-! ## The orchestrator task
(`orchestrator_task`, app/tasks.py lines 290-479).

Oracles: `routingLLM` is the outcome of `get_llm_decision` (the parsed JSON
decision, or the exception it re-raises); `toolExec` the outcome of
`_execute_tool`; `synthLLM` the outcome of the final `_execute_llm_request`
call as observed at line 450 (an exception, or the extracted message content,
itself possibly Python `None`); `fallbackLLM` the outcome of the apology
`get_llm_completion` call (both call sites build the identical prompt);
`getPromptFromFile` the persona file loader; `timeCtx` the time-context line.
The trace records, besides the returned answer, whether the routing LLM was
consulted, the decision after validation, the tool invocation (if any), the
raw tool results and the base system prompt chosen for synthesis. -/

/-- One entry of the configured tool registry (`AVAILABLE_TOOLS`); only the
name participates in the registry-membership validation. -/
structure ToolDef where
  name : Str

/-- The configuration and oracles of one orchestrator run. -/
structure OrchEnv where
  backends : List Backend
  routingBackendName : Option Str
  tools : List ToolDef
  adminEmail : Str
  timeCtx : Str
  routingLLM : Str → Str → Except PyErr PyVal
  toolExec : PyVal → PyVal → Str → Except PyErr Str
  synthLLM : List Message → Except PyErr (Option Str)
  fallbackLLM : Except PyErr Str
  getPromptFromFile : PyVal → Option Str

/-- The observable outcome of one orchestrator run. -/
structure OrchTrace where
  routingCalled : Bool
  validatedDecision : PyVal
  toolExecuted : Option PyVal
  toolResults : Str
  baseSystemPrompt : Str
  answer : Str

/-- Lines 300-315: the model id used for the decision call. -/
def routingModelOf (backends : List Backend) (routingBackendName : Option Str)
    (modelId : Str) : Str :=
  match routingBackendName with
  | some rb =>
    if rb = [] then modelId
    else
      match getBackendConfig backends rb with
      | some bc =>
        match bc.defaultModel with
        | some dm => if dm = [] then modelId else rb ++ ('/' :: dm)
        | Option.none => modelId
      | Option.none => modelId
  | Option.none => modelId

/-- Lines 317-322: the user question is the content of the last message when
its role is `user`, and it must be a non-empty string. -/
def extractQuestion (conv : List Message) : Option Str :=
  match conv.getLast? with
  | some m =>
    if m.role = some "user".data then
      match m.content with
      | some (.str s) => if s = [] then Option.none else some s
      | _ => Option.none
    else Option.none
  | Option.none => Option.none

/-- Lines 354-377: decision validation.  For a `call_tool` action the tool
name is normalised across the `tool_name`/`outil` keys and the parameters
across `parameters`/`paramètres`; an unknown tool or absent parameters force
`respond_directly`, otherwise the normalised keys are written back.  Reading
an attribute of a non-dictionary decision raises. -/
def validateDecision (toolNames : List Str) (decision : PyVal) : Except PyErr PyVal :=
  match decision with
  | .dict d =>
    if pyEqStr (dictGet d "action".data) "call_tool".data then
      let tn := pyOrV (dictGet d "tool_name".data) (dictGet d "outil".data)
      let pv := if dictHasKey d "parameters".data then dictGet d "parameters".data
                else dictGet d "paramètres".data
      match pyMemStrSet tn toolNames with
      | .error e => .error e
      | .ok mem =>
        if !mem || pyIsNone pv then
          .ok (.dict [("action".data, .str "respond_directly".data)])
        else
          .ok (.dict (dictSet (dictSet d "tool_name".data tn) "parameters".data pv))
    else .ok decision
  | _ => .error ⟨"AttributeError".data⟩

/-- Lines 380-393: the tool execution step.  A tool runs only when the
validated action is `call_tool` with a truthy tool name; an exception from
the tool call is converted to an error string by the inner handler. -/
def toolPhase (toolExec : PyVal → PyVal → Str → Except PyErr Str) (decision : PyVal)
    (q : Str) : Except PyErr (Option PyVal × Str) :=
  match decision with
  | .dict d =>
    let toolName := dictGet d "tool_name".data
    let params := dictGetD d "parameters".data (.dict [])
    if pyEqStr (dictGet d "action".data) "call_tool".data && pyTruthy toolName then
      match toolExec toolName params q with
      | .ok r => .ok (some toolName, r)
      | .error e =>
        .ok (some toolName,
             "Erreur critique lors de l\x27exécution de l\x27outil : ".data ++ e.msg)
    else .ok (Option.none, [])
  | _ => .error ⟨"AttributeError".data⟩

/-- The generic persona line of line 430. -/
def defaultPersona : Str :=
  "Vous êtes un assistant IA généraliste et serviable.".data

/-- Lines 424-430: the persona prompt of the calling user, or the generic
assistant persona. -/
def personaOrDefault (getPrompt : PyVal → Option Str)
    (userInfo : Option (List (Str × PyVal))) : Str :=
  match userInfo with
  | some ui =>
    if !ui.isEmpty then
      let pf := dictGet ui "persona_prompt_file".data
      if pyTruthy pf then
        match getPrompt pf with
        | some pp => if pp = [] then defaultPersona else pp
        | Option.none => defaultPersona
      else defaultPersona
    else defaultPersona
  | Option.none => defaultPersona

/-- Lines 417-421: the synthesis system prompt built around the tool output. -/
def synthSystemPrompt (toolResults : Str) : Str :=
  ("Vous êtes un assistant de synthèse. Votre rôle est de répondre à la question de l\x27utilisateur EN VOUS BASANT UNIQUEMENT sur les \"Informations de recherche\" fournies ci-dessous.\nRègle impérative : NE PAS inventer d\x27informations ou de valeurs qui ne sont pas présentes dans le contexte. Si une information demandée par l\x27utilisateur (par exemple, le risque d\x27insectes) n\x27est pas explicitement listée dans les \"Informations de recherche\", vous DEVEZ indiquer qu\x27elle n\x27a pas pu être trouvée.\nFormatez la réponse de manière claire et lisible.\n\nInformations de recherche:\n---\n".data
   ++ toolResults ++ "\n---".data)

/-- Lines 436-439 on the value level: replace the content of a leading system
message, or prepend a fresh one. -/
def injectSystem (conv : List Message) (prompt : Str) : List Message :=
  match conv with
  | m :: rest =>
    if m.role = some "system".data then { m with content := some (.str prompt) } :: rest
    else ⟨some "system".data, some (.str prompt)⟩ :: m :: rest
  | [] => [⟨some "system".data, some (.str prompt)⟩]

/-- Lines 330-341 and 466-476: try the apology LLM; a falsy or failed result
falls back to the fixed prompt. -/
def fallbackAnswer (llm : Except PyErr Str) (hard : Str) : Str :=
  match llm with
  | .ok s => if s = [] then hard else s
  | .error _ => hard

/-- The fixed fallback of lines 326-329. -/
def techFallback (adminEmail : Str) : Str :=
  "Je rencontre une difficulté technique pour traiter votre demande. Veuillez contacter l\x27administrateur système à l\x27adresse ".data
  ++ adminEmail ++ ".".data

/-- The fixed fallback of lines 462-465. -/
def synthFallback (adminEmail : Str) : Str :=
  "Je rencontre une difficulté technique pour générer la réponse finale. Veuillez contacter l\x27administrateur système à l\x27adresse ".data
  ++ adminEmail ++ ".".data

/-- The empty-answer replacement of line 456. -/
def emptyAnswerApology : Str :=
  "Désolé, je n\x27ai pas pu générer de réponse pour votre demande. Veuillez essayer de reformuler votre question.".data

/-- The hard-coded apology of line 479 (the outermost handler). -/
def genericApology : Str :=
  "Désolé, une erreur est survenue lors du traitement de votre demande.".data

/-- The trace of a run that ends in the outermost exception handler
(line 477-479). -/
def outerFailTrace (rc : Bool) : OrchTrace :=
  { routingCalled := rc, validatedDecision := .none, toolExecuted := Option.none,
    toolResults := [], baseSystemPrompt := [], answer := genericApology }

/-- Lines 443-458: the synthesis call and its guards, producing the final
answer; a `None` content makes the logging slice raise, which the handler of
line 459 catches like a failed call. -/
def synthAnswer (env : OrchEnv) (synthMsgs : List Message) : Str :=
  match env.synthLLM synthMsgs with
  | .ok (some s) => if s = [] ∨ pyStrip s = [] then emptyAnswerApology else s
  | .ok Option.none => fallbackAnswer env.fallbackLLM (synthFallback env.adminEmail)
  | .error _ => fallbackAnswer env.fallbackLLM (synthFallback env.adminEmail)

/-- `orchestrator_task` (app/tasks.py lines 290-479).  The `sid` tags log
lines only.  Every exception of the body is caught by the outermost handler,
which returns the hard-coded apology. -/
def orchestratorTask (env : OrchEnv) (sid : Str) (conv : List Message)
    (modelId : Str) (userInfo : Option (List (Str × PyVal))) : OrchTrace :=
  let _ := sid
  let routingModelId := routingModelOf env.backends env.routingBackendName modelId
  match extractQuestion conv with
  | Option.none =>
    { routingCalled := false, validatedDecision := .none, toolExecuted := Option.none,
      toolResults := [], baseSystemPrompt := [],
      answer := fallbackAnswer env.fallbackLLM (techFallback env.adminEmail) }
  | some q =>
    let bypass := pyStartsWith (pyStrip q) "### Task:".data
    let decisionRes : Except PyErr PyVal :=
      if bypass then .ok (.dict [("action".data, .str "respond_directly".data)])
      else env.routingLLM q routingModelId
    let rc := !bypass
    match decisionRes with
    | .error _ => outerFailTrace rc
    | .ok dec0 =>
      match validateDecision (env.tools.map ToolDef.name) dec0 with
      | .error _ => outerFailTrace rc
      | .ok dec =>
        match toolPhase env.toolExec dec q with
        | .error _ => outerFailTrace rc
        | .ok tp =>
          let basePrompt :=
            if tp.2 = [] then personaOrDefault env.getPromptFromFile userInfo
            else synthSystemPrompt tp.2
          let finalPrompt := pyStrip (env.timeCtx ++ ("\n\n".data ++ basePrompt))
          let synthMsgs := injectSystem conv finalPrompt
          let answer := synthAnswer env synthMsgs
          { routingCalled := rc, validatedDecision := dec, toolExecuted := tp.1,
            toolResults := tp.2, baseSystemPrompt := basePrompt, answer := answer }

/-! ## The chat-completions route
(`chat_completions`, app/routes.py lines 90-282).

The request body is a `PyVal` (what `request.get_json()` produced) and the
`X-SID` header an optional string.  Oracles: `requestId` and `nowTime` stand
for the uuid and clock, `taskId` for the id of the enqueued task, and
`unaryCall` / `streamCall` for the outcome of the direct (non-agentic)
`get_chat_completion` call, taking the resolved model and backend.  The
result records, in order, the audit records written, the HTTP status, the
body, and the arguments passed to `orchestrator_task.delay` when a task was
enqueued; the audit records keep the fields the claims speak about (the
request id, the record type, and the logged status code). -/

/-- One chunk of a streamed completion, as far as the route inspects it. -/
structure StreamChunk where
  content : Option Str
  finishReason : Option Str

/-- The route configuration and oracles. -/
structure RouteEnv where
  backends : List Backend
  primaryBackendName : Option Str
  requestId : Str
  nowTime : Int
  taskId : Str
  unaryCall : Str → Str → Except PyErr PyVal
  streamCall : Str → Str → Except PyErr (List StreamChunk)

/-- One audit-log record (the fields the claims constrain). -/
structure AuditRec where
  reqId : Str
  rtype : Str
  statusCode : Option Nat
deriving DecidableEq

/-- The body of the HTTP response; `crashed` marks an exception that escapes
the handler (the framework then answers 500 without further audit records). -/
inductive RouteBody where
  | json (v : PyVal)
  | sse
  | crashed

/-- The observable outcome of one `chat_completions` request. -/
structure RouteResult where
  audit : List AuditRec
  status : Nat
  body : RouteBody
  enqueued : Option (PyVal × Str)

/-- The OpenAI-shaped validation error body. -/
def err400 (msg : Str) : PyVal :=
  .dict [("error".data,
          .dict [("message".data, .str msg),
                 ("type".data, .str "invalid_request_error".data)])]

/-- Lines 187-192: no model given, fall back to the primary backend and its
default model. -/
def resolveNoModel (backends : List Backend) (primary : Option Str) :
    Option Str × Option Str :=
  (primary,
   match primary with
   | some p =>
     (match getBackendConfig backends p with
      | some bc => bc.defaultModel
      | Option.none => Option.none)
   | Option.none => Option.none)

/-- Lines 164-192: resolve the backend and model of a direct request from the
`model` field. -/
def resolveDirect (backends : List Backend) (primary : Option Str) (mv : PyVal) :
    Option Str × Option Str :=
  match mv with
  | .str s =>
    if s = [] then resolveNoModel backends primary
    else if hasSlash s then
      let p := splitOnFirstSlash s
      if backends.any (fun b => decide (b.name = some p.1)) then (some p.1, some p.2)
      else (Option.none, Option.none)
    else
      match backends.find? (fun b => decide (b.name = some s)) with
      | some bc => (bc.name, bc.defaultModel)
      | Option.none => (primary, some s)
  | v => if pyTruthy v then (Option.none, Option.none) else resolveNoModel backends primary

/-- Lines 147-159: the 202 acceptance of an agentic request, and the enqueue
`orchestrator_task.delay(user_question, sid)`. -/
def agenticAccept (env : RouteEnv) (reqRec : AuditRec) (userQ : PyVal) (sid : Str)
    (mv : PyVal) : RouteResult :=
  let body : PyVal := .dict
    [("id".data, .str env.taskId),
     ("object".data, .str "task.accepted".data),
     ("created".data, .int env.nowTime),
     ("model".data, mv),
     ("choices".data, .list
        [.dict [("index".data, .int 0),
                ("delta".data, .dict [("role".data, .str "assistant".data),
                                      ("content".data,
                                       .str "Tâche agentique lancée...".data)]),
                ("finish_reason".data, .none)]])]
  ⟨[reqRec], 202, .json body, some (userQ, sid)⟩

/-- Lines 160-282: the direct (non-agentic) path.  Streaming or not, the
`finally` and the two branches write exactly one `response` audit record. -/
def directPath (env : RouteEnv) (reqRec : AuditRec) (pd : List (Str × PyVal))
    (mv : PyVal) : RouteResult :=
  let stream := pyTruthy (dictGetD pd "stream".data (.bool false))
  let r := resolveDirect env.backends env.primaryBackendName mv
  if strOptTruthy r.1 && strOptTruthy r.2 then
    let bu := r.1.getD []
    let mu := r.2.getD []
    if stream then
      match env.streamCall mu bu with
      | .ok _ =>
        ⟨[reqRec, ⟨env.requestId, "response".data, some 200⟩], 200, .sse, Option.none⟩
      | .error _ =>
        ⟨[reqRec, ⟨env.requestId, "response".data, some 500⟩], 200, .sse, Option.none⟩
    else
      match env.unaryCall mu bu with
      | .ok v =>
        ⟨[reqRec, ⟨env.requestId, "response".data, some 200⟩], 200, .json v, Option.none⟩
      | .error e =>
        ⟨[reqRec, ⟨env.requestId, "response".data, some 500⟩], 500,
         .json (.dict [("error".data,
                        .dict [("message".data, .str e.msg),
                               ("type".data, .str "api_error".data)])]),
         Option.none⟩
  else
    ⟨[reqRec], 400,
     .json (err400 "Impossible de déterminer le modèle ou le backend à utiliser.".data),
     Option.none⟩

/-- `chat_completions` (app/routes.py lines 90-282).  The `request` audit
record is written before any validation; the agentic branch answers 202 and
writes no `response` record. -/
def chatCompletions (env : RouteEnv) (payload : PyVal) (xsid : Option Str) :
    RouteResult :=
  let reqRec : AuditRec := ⟨env.requestId, "request".data, Option.none⟩
  if !(pyTruthy payload) then
    ⟨[reqRec], 400,
     .json (err400 "Corps de la requête invalide (doit être du JSON).".data),
     Option.none⟩
  else
    match payload with
    | .dict pd =>
      match dictGet pd "messages".data with
      | .list ms =>
        if ms.isEmpty then
          ⟨[reqRec], 400,
           .json (err400 "Le champ messages est requis et doit être une liste non vide.".data),
           Option.none⟩
        else
          match ms.getLast? with
          | some (.dict ld) =>
            if dictHasKey ld "content".data then
              let userQ := dictGet ld "content".data
              let mv := dictGet pd "model".data
              if pyTruthy mv then
                match pyAttrStartsWith mv "harpou-agent/".data with
                | .error _ => ⟨[reqRec], 500, .crashed, Option.none⟩
                | .ok isAgentic =>
                  if isAgentic then
                    match xsid with
                    | some sid =>
                      if sid = [] then
                        ⟨[reqRec], 400,
                         .json (err400 "L\x27en-tête X-SID est requis pour les requêtes agentiques.".data),
                         Option.none⟩
                      else agenticAccept env reqRec userQ sid mv
                    | Option.none =>
                      ⟨[reqRec], 400,
                       .json (err400 "L\x27en-tête X-SID est requis pour les requêtes agentiques.".data),
                       Option.none⟩
                  else directPath env reqRec pd mv
              else directPath env reqRec pd mv
            else
              ⟨[reqRec], 400,
               .json (err400 "Le dernier élément de messages doit être un objet avec une clé content.".data),
               Option.none⟩
          | _ =>
            ⟨[reqRec], 400,
             .json (err400 "Le dernier élément de messages doit être un objet avec une clé content.".data),
             Option.none⟩
      | _ =>
        ⟨[reqRec], 400,
         .json (err400 "Le champ messages est requis et doit être une liste non vide.".data),
         Option.none⟩
    | _ => ⟨[reqRec], 500, .crashed, Option.none⟩

/-- The number of audit records of a given type. -/
def countAudit (l : List AuditRec) (t : Str) : Nat :=
  (l.filter (fun r => decide (r.rtype = t))).length

/-! ## Concrete instances used by the closed statements below -/

/-- Whether a JSON response body has a given top-level key. -/
def resultBodyHasKey (r : RouteResult) (k : Str) : Bool :=
  match r.body with
  | .json (.dict d) => dictHasKey d k
  | _ => false

/-- A one-backend route environment with deterministic oracles. -/
def routeEnvC : RouteEnv where
  backends := [⟨some "ollama_local".data, true, some "llama3".data⟩]
  primaryBackendName := some "ollama_local".data
  requestId := "req_1".data
  nowTime := 1700000000
  taskId := "task_1".data
  unaryCall := fun _ _ => .ok (.dict [("object".data, .str "chat.completion".data)])
  streamCall := fun _ _ => .ok []

/-- The messages list shared by the concrete payloads. -/
def messagesC : PyVal :=
  .list [.dict [("role".data, .str "user".data), ("content".data, .str "ping".data)]]

/-- An agentic request payload (spec scenario S2). -/
def agenticPayloadC : PyVal :=
  .dict [("model".data, .str "harpou-agent/llama3".data), ("messages".data, messagesC)]

/-- A direct, non-streaming request payload (spec scenario S1). -/
def directPayloadC : PyVal :=
  .dict [("model".data, .str "ollama_local/llama3".data), ("messages".data, messagesC)]

/-- An orchestrator environment whose routing LLM hallucinates the unknown
tool `read_my_mind` (spec scenario S4). -/
def orchEnvC : OrchEnv where
  backends := []
  routingBackendName := Option.none
  tools := [⟨"search_web".data⟩, ⟨"read_webpage".data⟩]
  adminEmail := "admin@harpou.ai".data
  timeCtx := "Contexte temporel : 2026-10-12".data
  routingLLM := fun _ _ => .ok (.dict
    [("action".data, .str "call_tool".data),
     ("tool_name".data, .str "read_my_mind".data),
     ("parameters".data, .dict [])])
  toolExec := fun _ _ _ => .ok "resultat outil".data
  synthLLM := fun _ => .ok (some "Voici la réponse.".data)
  fallbackLLM := .ok "Toutes mes excuses.".data
  getPromptFromFile := fun _ => Option.none

/-- A conversation asking a plain question. -/
def convC : List Message :=
  [⟨some "user".data, some (.str "Quelle heure est-il a Montreal".data)⟩]

/-- A conversation carrying an UI-internal request (spec scenario S5). -/
def convTaskC : List Message :=
  [⟨some "user".data, some (.str "### Task: Generate a title".data)⟩]

/-- A one-backend connector environment whose backend answers with a
protocol error (an HTTP status error). -/
def envProto : ConnEnv where
  backends := [⟨some "p".data, true, Option.none⟩]
  primaryBackendName := some "p".data
  haStrategy := some "failover".data
  call := fun _ _ => .protoErr

/-- A one-message heap for the frame-property instance. -/
def heapC : Heap where
  mem := fun _ => ⟨some "user".data, some (.str "salut".data)⟩
  nxt := 1

/-- A fetch oracle that always fails (no image can be downloaded). -/
def fetchNone : Str → Option (Str × Str) := fun _ => Option.none

/-! ## Theorems -/

/-- A data URI is not a web url: the two url heads differ at the first
character. -/
theorem isWebUrl_dataUri (t : Str) : isWebUrl ("data:".data ++ t) = false := rfl


/-- A part with no web url is left untouched by the pre-processor. -/
theorem processPart_nonweb (fetch : Str → Option (Str × Str)) (p : MsgPart)
    (h : partNonWeb p = true) : processPart fetch p = p := by
  obtain ⟨pt, iu⟩ := p
  by_cases hty : pt = some "image_url".data
  · cases iu with
    | none => simp [processPart, hty]
    | some obj =>
      obtain ⟨url⟩ := obj
      cases url with
      | none => simp [processPart, hty]
      | some u =>
        have hw : isWebUrl u = false := by simpa [partNonWeb] using h
        simp [processPart, hty, hw]
  · simp [processPart, hty]

/-- The per-part rewrite is idempotent. -/
theorem processPart_idem (fetch : Str → Option (Str × Str)) (p : MsgPart) :
    processPart fetch (processPart fetch p) = processPart fetch p := by
  obtain ⟨pt, iu⟩ := p
  by_cases hty : pt = some "image_url".data
  · cases iu with
    | none => simp [processPart, hty]
    | some obj =>
      obtain ⟨url⟩ := obj
      cases url with
      | none => simp [processPart, hty]
      | some u =>
        by_cases hw : isWebUrl u = true
        · cases henc : encodeImageUrl fetch u with
          | none => simp [processPart, hty, hw, henc]
          | some d =>
            have hd : isWebUrl d = false := by
              unfold encodeImageUrl at henc
              cases hf : fetch u with
              | none => rw [hf] at henc; exact Option.noConfusion henc
              | some pr =>
                rw [hf] at henc
                simp only [Option.some.injEq] at henc
                rw [← henc]
                exact isWebUrl_dataUri _
            simp [processPart, hty, hw, henc, hd]
        · simp [processPart, hty, hw]
  · simp [processPart, hty]

/-- Mapping an idempotent function twice equals mapping it once. -/
theorem map_idem_aux (f : α → α) (h : ∀ a, f (f a) = f a) (l : List α) :
    (l.map f).map f = l.map f := by
  induction l with
  | nil => rfl
  | cons a as ih => simp only [List.map_cons, h, ih]

/-- Mapping the part rewrite over inlined parts is the identity. -/
theorem map_nonweb_aux (fetch : Str → Option (Str × Str)) (ps : List MsgPart)
    (h : ∀ q ∈ ps, partNonWeb q = true) : ps.map (processPart fetch) = ps := by
  induction ps with
  | nil => rfl
  | cons q rest ih =>
    simp only [List.map_cons]
    rw [processPart_nonweb fetch q (h q (by simp))]
    rw [ih (fun x hx => h x (by simp [hx]))]

/-- The per-message rewrite is idempotent. -/
theorem processMessage_idem (fetch : Str → Option (Str × Str)) (m : Message) :
    processMessage fetch (processMessage fetch m) = processMessage fetch m := by
  obtain ⟨r, c⟩ := m
  cases c with
  | none => simp [processMessage]
  | some cc =>
    cases cc with
    | str s => simp [processMessage]
    | pynone => simp [processMessage]
    | parts ps =>
      simp [processMessage, map_idem_aux (processPart fetch) (processPart_idem fetch) ps]

/-- A message with only inlined image parts is left untouched. -/
theorem processMessage_nonweb (fetch : Str → Option (Str × Str)) (m : Message)
    (h : msgNonWeb m = true) : processMessage fetch m = m := by
  obtain ⟨r, c⟩ := m
  cases c with
  | none => simp [processMessage]
  | some cc =>
    cases cc with
    | str s => simp [processMessage]
    | pynone => simp [processMessage]
    | parts ps =>
      simp only [msgNonWeb] at h
      have hall : ∀ q ∈ ps, partNonWeb q = true := by
        intro q hq
        exact List.all_eq_true.mp h q hq
      simp [processMessage, map_nonweb_aux fetch ps hall]

/-- C7: the multimodal pre-processor rewrites only image parts with a web
url into data URIs, so it is idempotent, and a message list whose image parts
are already inlined (in particular its own output) is returned unchanged. -/
theorem multimodal_preprocess_idempotent (fetch : Str → Option (Str × Str))
    (ms : List Message) :
    preprocessMessages fetch (preprocessMessages fetch ms) = preprocessMessages fetch ms
    ∧ ((∀ m ∈ ms, msgNonWeb m = true) → preprocessMessages fetch ms = ms) := by
  constructor
  · unfold preprocessMessages
    exact map_idem_aux (processMessage fetch) (processMessage_idem fetch) ms
  · intro h
    unfold preprocessMessages
    induction ms with
    | nil => rfl
    | cons m rest ih =>
      simp only [List.map_cons]
      rw [processMessage_nonweb fetch m (h m (by simp))]
      rw [ih (fun x hx => h x (by simp [hx]))]

/-- One failover step of the buggy configuration: with the prefixed model id
the split reassigns backend `a`, the call fails, and the retry is launched
with backend parameter `b` but the same model id, the tried set still only
holding `a`. -/
theorem execAB_step (n : Nat) (bn : Option Str) :
    execLlmRequest cfgAB (n + 1) "a/llama3".data bn ["a".data] =
    execLlmRequest cfgAB n "a/llama3".data (some "b".data) ["a".data] := rfl

/-- Once `a` is in the tried set, the run never leaves the two-state loop. -/
theorem execAB_diverges_aux :
    ∀ (n : Nat) (bn : Option Str),
      execLlmRequest cfgAB n "a/llama3".data bn ["a".data] = .diverged
  | 0, _ => rfl
  | n + 1, bn => by
    rw [execAB_step n bn]
    exact execAB_diverges_aux n (some "b".data)

/-- C1 (the code defect): with backends `a, b`, strategy `failover`, backend
`a` unreachable and backend `b` healthy, the request for model `a/llama3`
never succeeds for any recursion budget: the failover retry passes the
unchanged model id, whose `a/` head overrides the chosen backend `b`, so the
connector re-calls `a` forever. -/
theorem failover_prefixed_model_diverges (fuel : Nat) :
    execLlmRequest cfgAB fuel "a/llama3".data Option.none [] = .diverged := by
  cases fuel with
  | zero => rfl
  | succ n =>
    have hstep : execLlmRequest cfgAB (n + 1) "a/llama3".data Option.none [] =
        execLlmRequest cfgAB n "a/llama3".data (some "b".data) ["a".data] := rfl
    rw [hstep]
    exact execAB_diverges_aux n (some "b".data)

/-- C5: a protocol error (an `openai.APIError` that is not a connection or
timeout error) is re-raised at once: no other backend is attempted, whatever
the HA strategy and the tried set. -/
theorem protocol_error_no_failover (env : ConnEnv) (fuel : Nat) (modelName : Str)
    (backendName : Option Str) (tried : List Str) (fb fm : Str) (bc : Backend)
    (hres : resolveRouting env modelName backendName = some (fb, fm))
    (hcfg : getBackendConfig env.backends fb = some bc)
    (hcall : env.call fb fm = .protoErr) :
    execLlmRequest env (fuel + 1) modelName backendName tried = .protoFail := by
  unfold execLlmRequest
  simp only [hres, hcfg, hcall]

/-- C5 witness: a single backend answering an HTTP status error makes the
request fail with that protocol error at once. -/
theorem protocol_error_no_failover_witness :
    execLlmRequest envProto 1 "p/m".data Option.none [] = .protoFail :=
  protocol_error_no_failover envProto 0 "p/m".data Option.none []
    "p".data "m".data ⟨some "p".data, true, Option.none⟩ rfl rfl rfl

/-- Projection of a literal heap. -/
theorem heap_mk_mem (f : Nat → Message) (n : Nat) : (Heap.mk f n).mem = f := rfl

/-- Projection of a literal heap. -/
theorem heap_mk_nxt (f : Nat → Message) (n : Nat) : (Heap.mk f n).nxt = n := rfl

/-- An update is invisible at any other address. -/
theorem updFn_apply_ne (f : Nat → Message) (a : Nat) (v : Message) (x : Nat)
    (h : x ≠ a) : updFn f a v x = f x := by
  unfold updFn
  exact if_neg h

/-- A deep copy only moves the allocation pointer forward. -/
theorem deepcopy_nxt_ge (l : List Nat) (h : Heap) :
    h.nxt ≤ (deepcopyList h l).2.nxt := by
  induction l generalizing h with
  | nil => exact Nat.le_refl _
  | cons a rest ih =>
    simp only [deepcopyList]
    exact Nat.le_trans (Nat.le_succ _) (ih ⟨updFn h.mem h.nxt (h.mem a), h.nxt + 1⟩)

/-- A deep copy does not change any address already allocated. -/
theorem deepcopy_mem_lt (l : List Nat) (h : Heap) (x : Nat) (hx : x < h.nxt) :
    (deepcopyList h l).2.mem x = h.mem x := by
  induction l generalizing h with
  | nil => rfl
  | cons a rest ih =>
    simp only [deepcopyList]
    rw [ih ⟨updFn h.mem h.nxt (h.mem a), h.nxt + 1⟩ (Nat.lt_succ_of_lt hx)]
    rw [heap_mk_mem]
    exact updFn_apply_ne _ _ _ _ (by omega)

/-- Every address a deep copy hands back is fresh. -/
theorem deepcopy_addrs_ge (l : List Nat) (h : Heap) :
    ∀ a ∈ (deepcopyList h l).1, h.nxt ≤ a := by
  induction l generalizing h with
  | nil => intro a ha; simp [deepcopyList] at ha
  | cons b rest ih =>
    intro a ha
    simp only [deepcopyList, List.mem_cons] at ha
    cases ha with
    | inl he => omega
    | inr hm =>
      have h2 : h.nxt + 1 ≤ a := ih ⟨updFn h.mem h.nxt (h.mem b), h.nxt + 1⟩ a hm
      omega

/-- The synthesis preparation writes only to copied or fresh addresses. -/
theorem synthPrep_frame (h : Heap) (conv : List Nat) (prompt : Str) (x : Nat)
    (hx : x < h.nxt) :
    ((synthPrepHeap h conv prompt).2).mem x = h.mem x := by
  have hge := deepcopy_nxt_ge conv h
  have hmem := deepcopy_mem_lt conv h x hx
  have haddr := deepcopy_addrs_ge conv h
  unfold synthPrepHeap
  cases hcp : (deepcopyList h conv).1 with
  | nil =>
    simp only [hcp, heap_mk_mem]
    rw [updFn_apply_ne _ _ _ _ (by omega)]
    exact hmem
  | cons a rest =>
    have ha : h.nxt ≤ a := haddr a (by rw [hcp]; exact List.mem_cons_self a rest)
    simp only [hcp]
    split
    · rw [heap_mk_mem, updFn_apply_ne _ _ _ _ (by omega)]
      exact hmem
    · rw [heap_mk_mem, updFn_apply_ne _ _ _ _ (by omega)]
      exact hmem

/-- Folding in-place rewrites over a set of addresses leaves every other
address unchanged. -/
theorem foldWrite_mem (fetch : Str → Option (Str × Str)) (as : List Nat) (hh : Heap)
    (x : Nat) (hx : ∀ a ∈ as, x ≠ a) :
    ((as.foldl (fun hh a => ⟨updFn hh.mem a (processMessage fetch (hh.mem a)), hh.nxt⟩)
      hh).mem x) = hh.mem x := by
  induction as generalizing hh with
  | nil => rfl
  | cons a rest ih =>
    simp only [List.foldl_cons]
    rw [ih ⟨updFn hh.mem a (processMessage fetch (hh.mem a)), hh.nxt⟩
        (fun b hb => hx b (List.mem_cons_of_mem a hb))]
    rw [heap_mk_mem]
    exact updFn_apply_ne _ _ _ _ (hx a (List.mem_cons_self a rest))

/-- The connector pre-processing writes only to copied addresses. -/
theorem preprocess_frame (fetch : Str → Option (Str × Str)) (h : Heap)
    (msgs : List Nat) (x : Nat) (hx : x < h.nxt) :
    ((preprocessHeap fetch h msgs).2).mem x = h.mem x := by
  have haddr := deepcopy_addrs_ge msgs h
  unfold preprocessHeap
  simp only
  rw [foldWrite_mem fetch _ _ x (fun a ha => by have := haddr a ha; omega)]
  exact deepcopy_mem_lt msgs h x hx

/-- C8: both the synthesis preparation of the orchestrator and the multimodal
pre-processing of the connector operate on deep copies, so every message the
caller holds reads the same after the call as before. -/
theorem orchestration_preserves_caller_messages (fetch : Str → Option (Str × Str))
    (h : Heap) (conv : List Nat) (prompt : Str)
    (hb : ∀ a ∈ conv, a < h.nxt) :
    (∀ a ∈ conv, ((synthPrepHeap h conv prompt).2).mem a = h.mem a)
    ∧ (∀ a ∈ conv, ((preprocessHeap fetch h conv).2).mem a = h.mem a) :=
  ⟨fun a ha => synthPrep_frame h conv prompt a (hb a ha),
   fun a ha => preprocess_frame fetch h conv a (hb a ha)⟩

/-- C8 witness: a concrete one-message conversation is unchanged by both
passes. -/
theorem orchestration_preserves_caller_messages_witness :
    ((synthPrepHeap heapC [0] "p".data).2).mem 0 = heapC.mem 0
    ∧ ((preprocessHeap fetchNone heapC [0]).2).mem 0 = heapC.mem 0 :=
  ⟨(orchestration_preserves_caller_messages fetchNone heapC [0] "p".data
      (by intro a ha; simp at ha; simp [ha, heapC])).1 0 (by simp),
   (orchestration_preserves_caller_messages fetchNone heapC [0] "p".data
      (by intro a ha; simp at ha; simp [ha, heapC])).2 0 (by simp)⟩

/-- Membership in a flattened image. -/
theorem mem_flatMapL (f : α → List β) (l : List α) (x : β) :
    x ∈ flatMapL f l ↔ ∃ a ∈ l, x ∈ f a := by
  induction l with
  | nil => simp [flatMapL]
  | cons a as ih =>
    simp only [flatMapL, List.mem_append, ih, List.mem_cons]
    constructor
    · rintro (h | ⟨b, hb, hx⟩)
      · exact ⟨a, Or.inl rfl, h⟩
      · exact ⟨b, Or.inr hb, hx⟩
    · rintro ⟨b, hb | hb, hx⟩
      · exact Or.inl (hb ▸ hx)
      · exact Or.inr ⟨b, hb, hx⟩

/-- Key membership after a dictionary assignment. -/
theorem mem_dictKeys_dictSet (d : List (Str × α)) (k0 : Str) (v : α) (k : Str) :
    k ∈ dictKeys (dictSet d k0 v) ↔ k = k0 ∨ k ∈ dictKeys d := by
  induction d with
  | nil => simp [dictSet, dictKeys]
  | cons kv rest ih =>
    obtain ⟨k1, v1⟩ := kv
    unfold dictSet
    by_cases h : k1 = k0
    · rw [if_pos h]
      subst h
      simp only [dictKeys, List.map_cons, List.mem_cons]
      tauto
    · rw [if_neg h]
      simp only [dictKeys, List.map_cons, List.mem_cons]
      simp only [dictKeys] at ih
      rw [ih]
      tauto

/-- Key membership after filling a dictionary from a list of pairs. -/
theorem mem_keys_foldl_dictSet (l : List (Str × Str)) (acc : List (Str × Str)) (k : Str) :
    k ∈ dictKeys (l.foldl (fun acc kv => dictSet acc kv.1 kv.2) acc)
    ↔ k ∈ l.map Prod.fst ∨ k ∈ dictKeys acc := by
  induction l generalizing acc with
  | nil => simp
  | cons kv rest ih =>
    simp only [List.foldl_cons, List.map_cons, List.mem_cons]
    rw [ih, mem_dictKeys_dictSet]
    tauto

/-- The keys of a refreshed catalog are the keys of the per-backend
contributions. -/
theorem mem_keys_refresh (backends : List Backend) (lm : Str → Option (List Str))
    (k : Str) :
    k ∈ dictKeys (refreshAndCacheModels backends lm) ↔
    ∃ b ∈ backends, k ∈ dictKeys (backendContribution lm b) := by
  unfold refreshAndCacheModels
  constructor
  · intro hk
    rcases (mem_keys_foldl_dictSet _ _ _).mp hk with h | h
    · rcases List.mem_map.mp h with ⟨kv, hkv, hfst⟩
      rcases (mem_flatMapL _ _ _).mp hkv with ⟨b, hb, hkvb⟩
      exact ⟨b, hb, List.mem_map.mpr ⟨kv, hkvb, hfst⟩⟩
    · simp [dictKeys] at h
  · rintro ⟨b, hb, hk⟩
    apply (mem_keys_foldl_dictSet _ _ _).mpr
    left
    rcases List.mem_map.mp hk with ⟨kv, hkv, hfst⟩
    exact List.mem_map.mpr ⟨kv, (mem_flatMapL _ _ _).mpr ⟨b, hb, hkv⟩, hfst⟩

/-- Every key a backend contributes is its name, a slash, and a raw id. -/
theorem contribution_key_shape (lm : Str → Option (List Str)) (b : Backend) (k : Str)
    (hk : k ∈ dictKeys (backendContribution lm b)) :
    ∃ nm raw, b.name = some nm ∧ k = nm ++ ('/' :: raw) := by
  unfold backendContribution at hk
  cases hn : b.name with
  | none => simp [hn, dictKeys] at hk
  | some nm =>
    simp only [hn] at hk
    by_cases hne : nm = []
    · simp [hne, dictKeys] at hk
    · simp only [if_neg hne] at hk
      cases hauto : b.llmAutoLoad with
      | true =>
        simp only [hauto, if_true] at hk
        cases hlm : lm nm with
        | none => simp [hlm, dictKeys] at hk
        | some mlist =>
          simp only [hlm, dictKeys, List.map_map, List.mem_map] at hk
          rcases hk with ⟨mid, _, hkeq⟩
          exact ⟨nm, mid, rfl, hkeq.symm⟩
      | false =>
        simp only [hauto, Bool.false_eq_true, if_false] at hk
        cases hd : b.defaultModel with
        | none => simp [hd, dictKeys] at hk
        | some dm =>
          simp only [hd] at hk
          by_cases hdm : dm = []
          · simp [hdm, dictKeys] at hk
          · simp only [if_neg hdm, dictKeys, List.map_cons, List.map_nil,
              List.mem_singleton] at hk
            exact ⟨nm, dm, rfl, hk⟩

/-- An auto-load backend whose listing succeeds contributes one entry per
listed model. -/
theorem contribution_auto (lm : Str → Option (List Str)) (b : Backend) (nm : Str)
    (mlist : List Str) (hn : b.name = some nm) (hne : nm ≠ [])
    (hauto : b.llmAutoLoad = true) (hlm : lm nm = some mlist) :
    backendContribution lm b =
      mlist.map (fun mid => (nm ++ ('/' :: mid), nm ++ ('/' :: mid))) := by
  simp [backendContribution, hn, hne, hauto, hlm]

/-- A manual backend with a default model contributes exactly its synthetic
entry. -/
theorem contribution_manual (lm : Str → Option (List Str)) (b : Backend) (nm dm : Str)
    (hn : b.name = some nm) (hne : nm ≠ []) (hauto : b.llmAutoLoad = false)
    (hd : b.defaultModel = some dm) (hdm : dm ≠ []) :
    backendContribution lm b = [(nm ++ ('/' :: dm), nm ++ ('/' :: dm))] := by
  simp [backendContribution, hn, hne, hauto, hd, hdm]

/-- A manual backend without a default model is skipped. -/
theorem contribution_skipped (lm : Str → Option (List Str)) (b : Backend) (nm : Str)
    (hn : b.name = some nm) (hauto : b.llmAutoLoad = false)
    (hd : b.defaultModel = Option.none ∨ b.defaultModel = some []) :
    backendContribution lm b = [] := by
  by_cases hne : nm = []
  · simp [backendContribution, hn, hne]
  · cases hd with
    | inl hd => simp [backendContribution, hn, hne, hauto, hd]
    | inr hd => simp [backendContribution, hn, hne, hauto, hd]

/-- A backend contribution depends on the listing oracle only at its own
name. -/
theorem contribution_local (lm lm2 : Str → Option (List Str)) (b : Backend) (nm : Str)
    (hn : b.name = some nm) (he : lm nm = lm2 nm) :
    backendContribution lm b = backendContribution lm2 b := by
  simp [backendContribution, hn, he]

/-- C9: every key of a refreshed catalog is a configured backend name, a
slash and a raw model id; a healthy auto-load backend contributes one entry
per listed model; a manual backend contributes exactly its synthetic default
entry, or nothing when no default model is set; and changing the listing
outcome of one backend leaves every other contribution unchanged and still in
the refreshed map. -/
theorem catalog_keys_shape_and_isolation (backends : List Backend)
    (lm lm2 : Str → Option (List Str)) (bad : Str) :
    (∀ k ∈ dictKeys (refreshAndCacheModels backends lm),
       ∃ b ∈ backends, ∃ nm raw, b.name = some nm ∧ k = nm ++ ('/' :: raw))
  ∧ (∀ b ∈ backends, ∀ nm mlist, b.name = some nm → nm ≠ [] →
       b.llmAutoLoad = true → lm nm = some mlist →
       backendContribution lm b =
         mlist.map (fun mid => (nm ++ ('/' :: mid), nm ++ ('/' :: mid))))
  ∧ (∀ b ∈ backends, ∀ nm dm, b.name = some nm → nm ≠ [] →
       b.llmAutoLoad = false → b.defaultModel = some dm → dm ≠ [] →
       backendContribution lm b = [(nm ++ ('/' :: dm), nm ++ ('/' :: dm))])
  ∧ (∀ b ∈ backends, ∀ nm, b.name = some nm → b.llmAutoLoad = false →
       (b.defaultModel = Option.none ∨ b.defaultModel = some []) →
       backendContribution lm b = [])
  ∧ ((∀ nm, nm ≠ bad → lm nm = lm2 nm) →
       ∀ b ∈ backends, ∀ nm, b.name = some nm → nm ≠ bad →
         backendContribution lm b = backendContribution lm2 b
         ∧ ∀ k ∈ dictKeys (backendContribution lm2 b),
             k ∈ dictKeys (refreshAndCacheModels backends lm2)) := by
  refine ⟨?_, ?_, ?_, ?_, ?_⟩
  · intro k hk
    rcases (mem_keys_refresh backends lm k).mp hk with ⟨b, hb, hkc⟩
    exact ⟨b, hb, contribution_key_shape lm b k hkc⟩
  · intro b _ nm mlist hn hne hauto hlm
    exact contribution_auto lm b nm mlist hn hne hauto hlm
  · intro b _ nm dm hn hne hauto hd hdm
    exact contribution_manual lm b nm dm hn hne hauto hd hdm
  · intro b _ nm hn hauto hd
    exact contribution_skipped lm b nm hn hauto hd
  · intro hagree b hb nm hn hnb
    refine ⟨contribution_local lm lm2 b nm hn (hagree nm hnb), ?_⟩
    intro k hk
    exact (mem_keys_refresh backends lm2 k).mpr ⟨b, hb, hk⟩


/-- A list with a non-empty head part is non-empty. -/
theorem append_ne_nil_left (l t : Str) (h : l ≠ []) : l ++ t ≠ [] := by
  intro hc
  exact h (List.append_eq_nil.mp hc).1

/-- The apology fallback never returns an empty string when its hard-coded
alternative is non-empty. -/
theorem fallbackAnswer_ne (e : Except PyErr Str) (hard : Str) (h : hard ≠ []) :
    fallbackAnswer e hard ≠ [] := by
  cases e with
  | error _ => exact h
  | ok s =>
    show (if s = [] then hard else s) ≠ []
    by_cases hs : s = []
    · rw [if_pos hs]; exact h
    · rw [if_neg hs]; exact hs

/-- The fixed technical fallback is non-empty. -/
theorem techFallback_ne (adm : Str) : techFallback adm ≠ [] := by
  unfold techFallback
  intro hc
  exact absurd (List.append_eq_nil.mp (List.append_eq_nil.mp hc).1).1 (by decide)

/-- The fixed synthesis fallback is non-empty. -/
theorem synthFallback_ne (adm : Str) : synthFallback adm ≠ [] := by
  unfold synthFallback
  intro hc
  exact absurd (List.append_eq_nil.mp (List.append_eq_nil.mp hc).1).1 (by decide)

/-- The synthesis step always yields a non-empty answer. -/
theorem synthAnswer_ne (env : OrchEnv) (msgs : List Message) :
    synthAnswer env msgs ≠ [] := by
  unfold synthAnswer
  split
  · split
    · show emptyAnswerApology ≠ []
      decide
    · rename_i hns
      exact fun hc => hns (Or.inl hc)
  · exact fallbackAnswer_ne _ _ (synthFallback_ne _)
  · exact fallbackAnswer_ne _ _ (synthFallback_ne _)

/-- Validation leaves the literal `respond_directly` decision unchanged. -/
theorem validate_respond_directly (names : List Str) :
    validateDecision names (.dict [("action".data, .str "respond_directly".data)]) =
    .ok (.dict [("action".data, .str "respond_directly".data)]) := rfl

/-- The tool phase does nothing on the literal `respond_directly` decision. -/
theorem toolPhase_respond_directly (f : PyVal → PyVal → Str → Except PyErr Str)
    (q : Str) :
    toolPhase f (.dict [("action".data, .str "respond_directly".data)]) q =
    .ok (Option.none, []) := rfl

/-- C10: the orchestrator task is a total function of its inputs and oracles
(no exception escapes its outermost handler) and its answer is never the
empty string: invalid questions, decision or synthesis failures and empty
synthesis output all end in a non-empty apology or fallback string. -/
theorem orchestrator_total_nonempty (env : OrchEnv) (sid : Str) (conv : List Message)
    (modelId : Str) (userInfo : Option (List (Str × PyVal))) :
    (orchestratorTask env sid conv modelId userInfo).answer ≠ [] := by
  rcases hE : extractQuestion conv with _ | q
  · simp only [orchestratorTask, hE]
    exact fallbackAnswer_ne _ _ (techFallback_ne _)
  · cases hbp : pyStartsWith (pyStrip q) "### Task:".data with
    | true =>
      simp only [orchestratorTask, hE, hbp, if_true, validate_respond_directly,
        toolPhase_respond_directly]
      exact synthAnswer_ne _ _
    | false =>
      rcases hdec : env.routingLLM q
          (routingModelOf env.backends env.routingBackendName modelId) with e | dec0
      · simp only [orchestratorTask, hE, hbp, Bool.false_eq_true, if_false, hdec]
        show genericApology ≠ []
        decide
      · rcases hval : validateDecision (env.tools.map ToolDef.name) dec0 with e | dec
        · simp only [orchestratorTask, hE, hbp, Bool.false_eq_true, if_false, hdec, hval]
          show genericApology ≠ []
          decide
        · rcases htp : toolPhase env.toolExec dec q with e | tp
          · simp only [orchestratorTask, hE, hbp, Bool.false_eq_true, if_false, hdec,
              hval, htp]
            show genericApology ≠ []
            decide
          · simp only [orchestratorTask, hE, hbp, Bool.false_eq_true, if_false, hdec,
              hval, htp]
            exact synthAnswer_ne _ _

/-- C6: a conversation whose last message is a user question beginning (after
stripping) with the literal task head skips the routing LLM entirely: the
decision is forced to `respond_directly`, no tool runs, and synthesis gets no
tool context. -/
theorem task_bypass_skips_routing (env : OrchEnv) (sid : Str) (conv : List Message)
    (modelId : Str) (userInfo : Option (List (Str × PyVal))) (m : Message) (q : Str)
    (hl : conv.getLast? = some m) (hr : m.role = some "user".data)
    (hc : m.content = some (.str q))
    (hp : pyStartsWith (pyStrip q) "### Task:".data = true) :
    (orchestratorTask env sid conv modelId userInfo).routingCalled = false
    ∧ (orchestratorTask env sid conv modelId userInfo).toolExecuted = Option.none
    ∧ (orchestratorTask env sid conv modelId userInfo).toolResults = []
    ∧ (orchestratorTask env sid conv modelId userInfo).validatedDecision =
        .dict [("action".data, .str "respond_directly".data)] := by
  have hqne : q ≠ [] := by
    intro h0
    rw [h0] at hp
    exact Bool.noConfusion hp
  have hq : extractQuestion conv = some q := by
    simp [extractQuestion, hl, hr, hc, hqne]
  simp only [orchestratorTask, hq, hp, if_true, Bool.not_true]
  exact ⟨rfl, rfl, rfl, rfl⟩

/-- C6 witness: an UI-internal title request takes the bypass. -/
theorem task_bypass_skips_routing_witness :
    (orchestratorTask orchEnvC "sid1".data convTaskC "m1".data Option.none).routingCalled
      = false
    ∧ (orchestratorTask orchEnvC "sid1".data convTaskC "m1".data Option.none).toolExecuted
      = Option.none :=
  ⟨(task_bypass_skips_routing orchEnvC "sid1".data convTaskC "m1".data Option.none
      ⟨some "user".data, some (.str "### Task: Generate a title".data)⟩
      "### Task: Generate a title".data rfl rfl rfl rfl).1,
   (task_bypass_skips_routing orchEnvC "sid1".data convTaskC "m1".data Option.none
      ⟨some "user".data, some (.str "### Task: Generate a title".data)⟩
      "### Task: Generate a title".data rfl rfl rfl rfl).2.1⟩

/-- C4: when the routing decision asks for a tool that is not in the registry
(after normalising the `outil`/`paramètres` spellings), or carries no
parameters field, the orchestrator forces `respond_directly`, executes no
tool, and synthesises without tool context. -/
theorem invalid_tool_decision_forces_direct (env : OrchEnv) (sid : Str)
    (conv : List Message) (modelId : Str) (userInfo : Option (List (Str × PyVal)))
    (q : Str) (d : List (Str × PyVal)) (mem : Bool)
    (hq : extractQuestion conv = some q)
    (hb : pyStartsWith (pyStrip q) "### Task:".data = false)
    (hd : env.routingLLM q (routingModelOf env.backends env.routingBackendName modelId)
            = .ok (.dict d))
    (ha : pyEqStr (dictGet d "action".data) "call_tool".data = true)
    (hm : pyMemStrSet (pyOrV (dictGet d "tool_name".data) (dictGet d "outil".data))
            (env.tools.map ToolDef.name) = .ok mem)
    (hbad : mem = false
            ∨ pyIsNone (if dictHasKey d "parameters".data
                then dictGet d "parameters".data
                else dictGet d "paramètres".data) = true) :
    (orchestratorTask env sid conv modelId userInfo).validatedDecision =
        .dict [("action".data, .str "respond_directly".data)]
    ∧ (orchestratorTask env sid conv modelId userInfo).toolExecuted = Option.none
    ∧ (orchestratorTask env sid conv modelId userInfo).toolResults = []
    ∧ (orchestratorTask env sid conv modelId userInfo).baseSystemPrompt =
        personaOrDefault env.getPromptFromFile userInfo := by
  have hval : validateDecision (env.tools.map ToolDef.name) (.dict d) =
      .ok (.dict [("action".data, .str "respond_directly".data)]) := by
    unfold validateDecision
    simp only [ha, if_true, hm]
    cases hbad with
    | inl h1 =>
      subst h1
      simp
    | inr h1 =>
      simp only [h1, Bool.or_true, if_true]
  simp only [orchestratorTask, hq, hb, Bool.false_eq_true, if_false, Bool.not_false,
    hd, hval]
  exact ⟨rfl, rfl, rfl, rfl⟩

/-- C4 witness: the hallucinated tool `read_my_mind` of scenario S4 is
rejected and the run answers directly. -/
theorem invalid_tool_decision_forces_direct_witness :
    (orchestratorTask orchEnvC "sid1".data convC "m1".data Option.none).validatedDecision
      = .dict [("action".data, .str "respond_directly".data)]
    ∧ (orchestratorTask orchEnvC "sid1".data convC "m1".data Option.none).toolExecuted
      = Option.none :=
  ⟨(invalid_tool_decision_forces_direct orchEnvC "sid1".data convC "m1".data Option.none
      "Quelle heure est-il a Montreal".data
      [("action".data, .str "call_tool".data),
       ("tool_name".data, .str "read_my_mind".data),
       ("parameters".data, .dict [])] false
      rfl rfl rfl rfl rfl (Or.inl rfl)).1,
   (invalid_tool_decision_forces_direct orchEnvC "sid1".data convC "m1".data Option.none
      "Quelle heure est-il a Montreal".data
      [("action".data, .str "call_tool".data),
       ("tool_name".data, .str "read_my_mind".data),
       ("parameters".data, .dict [])] false
      rfl rfl rfl rfl rfl (Or.inl rfl)).2.1⟩

/-- Evaluation of the route on a well-formed agentic request: it reduces to
the 202 acceptance. -/
theorem chatCompletions_agentic_eq (env : RouteEnv) (pd : List (Str × PyVal))
    (ms : List PyVal) (ld : List (Str × PyVal)) (s sid : Str)
    (h1 : dictGet pd "messages".data = .list ms)
    (h2 : ms.isEmpty = false)
    (h3 : ms.getLast? = some (.dict ld))
    (h4 : dictHasKey ld "content".data = true)
    (h5 : dictGet pd "model".data = .str s)
    (h6 : pyStartsWith s "harpou-agent/".data = true)
    (h7 : sid ≠ []) :
    chatCompletions env (.dict pd) (some sid) =
    agenticAccept env ⟨env.requestId, "request".data, Option.none⟩
      (dictGet ld "content".data) sid (.str s) := by
  have hpdne : pd.isEmpty = false := by
    cases pd with
    | nil =>
      rw [show dictGet [] "messages".data = PyVal.none from rfl] at h1
      exact PyVal.noConfusion h1
    | cons a l => rfl
  have hsne : s ≠ [] := by
    intro h0
    rw [h0] at h6
    exact Bool.noConfusion h6
  have hT : pyTruthy (.dict pd) = true := by simp [pyTruthy, hpdne]
  have hTs : pyTruthy (.str s) = true := by simp [pyTruthy, hsne]
  simp only [chatCompletions, hT, Bool.not_true, Bool.false_eq_true, if_false,
    h1, h2, h3, h4, if_true, h5, hTs, pyAttrStartsWith, h6]
  rw [if_neg h7]

/-- Evaluation of the route on a well-formed direct request: it reduces to
the direct path. -/
theorem chatCompletions_direct_eq (env : RouteEnv) (pd : List (Str × PyVal))
    (ms : List PyVal) (ld : List (Str × PyVal)) (s : Str) (xsid : Option Str)
    (h1 : dictGet pd "messages".data = .list ms)
    (h2 : ms.isEmpty = false)
    (h3 : ms.getLast? = some (.dict ld))
    (h4 : dictHasKey ld "content".data = true)
    (h5 : dictGet pd "model".data = .str s)
    (h6 : pyStartsWith s "harpou-agent/".data = false) :
    chatCompletions env (.dict pd) xsid =
    directPath env ⟨env.requestId, "request".data, Option.none⟩ pd (.str s) := by
  have hpdne : pd.isEmpty = false := by
    cases pd with
    | nil =>
      rw [show dictGet [] "messages".data = PyVal.none from rfl] at h1
      exact PyVal.noConfusion h1
    | cons a l => rfl
  have hT : pyTruthy (.dict pd) = true := by simp [pyTruthy, hpdne]
  by_cases hs : s = []
  · have hTs : pyTruthy (.str s) = false := by simp [pyTruthy, hs]
    simp only [chatCompletions, hT, Bool.not_true, Bool.false_eq_true, if_false,
      h1, h2, h3, h4, if_true, h5, hTs]
  · have hTs : pyTruthy (.str s) = true := by simp [pyTruthy, hs]
    simp only [chatCompletions, hT, Bool.not_true, Bool.false_eq_true, if_false,
      h1, h2, h3, h4, if_true, h5, hTs, pyAttrStartsWith, h6]

/-- The direct path, streaming or not, writes exactly one response record
after the request record, with the logged status code of the branch taken. -/
theorem directPath_audit (env : RouteEnv) (reqRec : AuditRec)
    (pd : List (Str × PyVal)) (mv : PyVal)
    (hb : strOptTruthy (resolveDirect env.backends env.primaryBackendName mv).1 = true)
    (hm2 : strOptTruthy (resolveDirect env.backends env.primaryBackendName mv).2 = true) :
    ∃ sc, (directPath env reqRec pd mv).audit =
      [reqRec, ⟨env.requestId, "response".data, some sc⟩] := by
  unfold directPath
  simp only [hb, hm2, Bool.and_self, if_true]
  cases hst : pyTruthy (dictGetD pd "stream".data (.bool false)) with
  | true =>
    simp only [hst, if_true]
    cases hc : env.streamCall
        ((resolveDirect env.backends env.primaryBackendName mv).2.getD [])
        ((resolveDirect env.backends env.primaryBackendName mv).1.getD []) with
    | ok cs => exact ⟨200, by simp only [hc]⟩
    | error e => exact ⟨500, by simp only [hc]⟩
  | false =>
    simp only [hst, Bool.false_eq_true, if_false]
    cases hc : env.unaryCall
        ((resolveDirect env.backends env.primaryBackendName mv).2.getD [])
        ((resolveDirect env.backends env.primaryBackendName mv).1.getD []) with
    | ok v => exact ⟨200, by simp only [hc]⟩
    | error e => exact ⟨500, by simp only [hc]⟩

/-- C2 counterexample: the concrete agentic request of scenario S2 is
accepted with 202, but its body has no `task_id` and no `status_endpoint`
key (the id is under `id`), and the enqueued task arguments are the last
message content and the sid, not the conversation. -/
theorem agentic_response_shape_counterexample :
    (chatCompletions routeEnvC agenticPayloadC (some "abc".data)).status = 202
    ∧ resultBodyHasKey (chatCompletions routeEnvC agenticPayloadC (some "abc".data))
        "task_id".data = false
    ∧ resultBodyHasKey (chatCompletions routeEnvC agenticPayloadC (some "abc".data))
        "status_endpoint".data = false
    ∧ (chatCompletions routeEnvC agenticPayloadC (some "abc".data)).enqueued =
        some (.str "ping".data, "abc".data) :=
  ⟨rfl, rfl, rfl, rfl⟩

/-- C2 (amended): an agentic request with a non-empty `X-SID` enqueues the
orchestrator task with the last message content and the sid, and answers 202
with the task id under the key `id`, object `task.accepted`, and no
`status_endpoint` field. -/
theorem agentic_route_amended (env : RouteEnv) (pd : List (Str × PyVal))
    (ms : List PyVal) (ld : List (Str × PyVal)) (s sid : Str)
    (h1 : dictGet pd "messages".data = .list ms)
    (h2 : ms.isEmpty = false)
    (h3 : ms.getLast? = some (.dict ld))
    (h4 : dictHasKey ld "content".data = true)
    (h5 : dictGet pd "model".data = .str s)
    (h6 : pyStartsWith s "harpou-agent/".data = true)
    (h7 : sid ≠ []) :
    (chatCompletions env (.dict pd) (some sid)).status = 202
    ∧ (chatCompletions env (.dict pd) (some sid)).enqueued =
        some (dictGet ld "content".data, sid)
    ∧ resultBodyHasKey (chatCompletions env (.dict pd) (some sid)) "id".data = true
    ∧ resultBodyHasKey (chatCompletions env (.dict pd) (some sid)) "object".data = true
    ∧ resultBodyHasKey (chatCompletions env (.dict pd) (some sid)) "task_id".data = false
    ∧ resultBodyHasKey (chatCompletions env (.dict pd) (some sid)) "status_endpoint".data
        = false := by
  rw [chatCompletions_agentic_eq env pd ms ld s sid h1 h2 h3 h4 h5 h6 h7]
  exact ⟨rfl, rfl, rfl, rfl, rfl, rfl⟩

/-- C2 witness: the concrete request of scenario S2. -/
theorem agentic_route_amended_witness :
    (chatCompletions routeEnvC agenticPayloadC (some "abc".data)).status = 202
    ∧ resultBodyHasKey (chatCompletions routeEnvC agenticPayloadC (some "abc".data))
        "id".data = true :=
  ⟨(agentic_route_amended routeEnvC
      [("model".data, .str "harpou-agent/llama3".data), ("messages".data, messagesC)]
      [.dict [("role".data, .str "user".data), ("content".data, .str "ping".data)]]
      [("role".data, .str "user".data), ("content".data, .str "ping".data)]
      "harpou-agent/llama3".data "abc".data
      rfl rfl rfl rfl rfl rfl (by decide)).1,
   (agentic_route_amended routeEnvC
      [("model".data, .str "harpou-agent/llama3".data), ("messages".data, messagesC)]
      [.dict [("role".data, .str "user".data), ("content".data, .str "ping".data)]]
      [("role".data, .str "user".data), ("content".data, .str "ping".data)]
      "harpou-agent/llama3".data "abc".data
      rfl rfl rfl rfl rfl rfl (by decide)).2.2.1⟩

/-- C3 counterexample: the completed agentic request of scenario S2 leaves
one `request` audit record and no `response` record at all. -/
theorem audit_agentic_no_response_counterexample :
    countAudit (chatCompletions routeEnvC agenticPayloadC (some "abc".data)).audit
      "response".data = 0
    ∧ countAudit (chatCompletions routeEnvC agenticPayloadC (some "abc".data)).audit
      "request".data = 1 :=
  ⟨rfl, rfl⟩

/-- C3 (amended): every completed direct request — streaming or not — writes
exactly one `request` and one `response` audit record with the same request
id; a completed agentic request writes the `request` record only. -/
theorem audit_records_amended (env : RouteEnv) (pd : List (Str × PyVal))
    (ms : List PyVal) (ld : List (Str × PyVal)) (s : Str)
    (h1 : dictGet pd "messages".data = .list ms)
    (h2 : ms.isEmpty = false)
    (h3 : ms.getLast? = some (.dict ld))
    (h4 : dictHasKey ld "content".data = true)
    (h5 : dictGet pd "model".data = .str s) :
    (∀ sid : Str, pyStartsWith s "harpou-agent/".data = true → sid ≠ [] →
       (chatCompletions env (.dict pd) (some sid)).audit =
         [⟨env.requestId, "request".data, Option.none⟩])
    ∧ (pyStartsWith s "harpou-agent/".data = false →
       strOptTruthy (resolveDirect env.backends env.primaryBackendName (.str s)).1
         = true →
       strOptTruthy (resolveDirect env.backends env.primaryBackendName (.str s)).2
         = true →
       ∀ xsid : Option Str, ∃ sc,
         (chatCompletions env (.dict pd) xsid).audit =
           [⟨env.requestId, "request".data, Option.none⟩,
            ⟨env.requestId, "response".data, some sc⟩]) := by
  constructor
  · intro sid h6 h7
    rw [chatCompletions_agentic_eq env pd ms ld s sid h1 h2 h3 h4 h5 h6 h7]
    rfl
  · intro h6 hb hm2 xsid
    rw [chatCompletions_direct_eq env pd ms ld s xsid h1 h2 h3 h4 h5 h6]
    exact directPath_audit env ⟨env.requestId, "request".data, Option.none⟩ pd
      (.str s) hb hm2

/-- C3 witness: the concrete direct request of scenario S1 leaves exactly the
request/response pair. -/
theorem audit_records_amended_witness :
    ∃ sc, (chatCompletions routeEnvC directPayloadC Option.none).audit =
      [⟨"req_1".data, "request".data, Option.none⟩,
       ⟨"req_1".data, "response".data, some sc⟩] :=
  (audit_records_amended routeEnvC
      [("model".data, .str "ollama_local/llama3".data), ("messages".data, messagesC)]
      [.dict [("role".data, .str "user".data), ("content".data, .str "ping".data)]]
      [("role".data, .str "user".data), ("content".data, .str "ping".data)]
      "ollama_local/llama3".data
      rfl rfl rfl rfl rfl).2 rfl rfl rfl Option.none
